import Mathlib

/-!
Verification of the marlua core (`src/main.rs`): the single-slot frame
channel shared between the script thread and the render thread, and the
script-driven input harness (wait / toggle / press / release / hold).

The Rust code is shallowly embedded: the `Frame` struct and its two
methods become pure functions on an explicit channel state, the Lua
callbacks become functions on the input register (a `Nat` holding the
`u8` controller bitmask) and on an explicit script-thread state.
-/

set_option autoImplicit false

namespace Marlua

/-- One pixel, embedding `fastnes::ppu::Color`: four 8-bit channels. -/
structure Color where
  r : Nat
  g : Nat
  b : Nat
  a : Nat
deriving DecidableEq

/-- The video buffer type `[fastnes::ppu::Color; 61440]`, embedded as a
list of pixels. -/
def NesFrame : Type := List Color

instance : DecidableEq NesFrame := inferInstanceAs (DecidableEq (List Color))

/-- Embeds `struct Frame { frame: Mutex<[Color; 61440]>, ready: AtomicBool }`
(main.rs lines 299-302), generic over the stored frame type.  `ready = true`
is the consumed-or-empty mark (the slot may be overwritten), `ready = false`
means fresh-unconsumed.  The mutex serialises whole-frame copies, so each
operation acts atomically on this state. -/
structure Frame (F : Type) where
  frame : F
  ready : Bool
deriving DecidableEq

namespace Frame

/-- `Frame::update` (lines 305-317): `compare_exchange(true, false)` on
`ready`; on success the new frame is stored, on failure the call returns
at once and the new frame is discarded. -/
def update {F : Type} (ch : Frame F) (newFrame : F) : Frame F :=
  if ch.ready then { frame := newFrame, ready := false } else ch

/-- `Frame::frame` (lines 318-321): store `ready := true`, then return a
clone of the stored frame together with the resulting channel state. -/
def takeFrame {F : Type} (ch : Frame F) : F × Frame F :=
  (ch.frame, { ch with ready := true })

/-- A run of consecutive `update` calls with no intervening take. -/
def updateList {F : Type} (ch : Frame F) : List F → Frame F
  | [] => ch
  | f :: fs => updateList (update ch f) fs

end Frame

/-- One channel event: a producer `Frame::update` or a consumer
`Frame::frame` call. -/
inductive Ev (F : Type) where
  | publish (f : F)
  | take
deriving DecidableEq

/-- Run a history of channel events; returns the final channel state and
the values returned by the take events, in order. -/
def runEvents {F : Type} (ch : Frame F) : List (Ev F) → Frame F × List F
  | [] => (ch, [])
  | Ev.publish f :: evs => runEvents (Frame.update ch f) evs
  | Ev.take :: evs =>
    let p := Frame.takeFrame ch
    let rest := runEvents p.2 evs
    (rest.1, p.1 :: rest.2)

/-- The frames passed to publish events of a history, in order. -/
def publishedOf {F : Type} : List (Ev F) → List F
  | [] => []
  | Ev.publish f :: evs => f :: publishedOf evs
  | Ev.take :: evs => publishedOf evs

/-- The initial buffer contents built in `main` (lines 326-333):
61440 pixels with `r = g = b = a = 0`. -/
def initFrame : NesFrame := List.replicate 61440 ⟨0, 0, 0, 0⟩

/-- The channel as constructed in `main` (lines 325-335): all-zero frame,
`ready: AtomicBool::new(true)`. -/
def initChannel : Frame NesFrame := { frame := initFrame, ready := true }

/-- `button.to_uppercase()` as used on button names (ASCII): uppercase
every character.  Embedded as a structural map over the string's
characters so that it evaluates inside the kernel. -/
def toUpperStr (s : String) : String :=
  ⟨s.data.map Char.toUpper⟩

/-- The way a Lua callback can abort in this program: the catch-all match
arm of toggle / release / press is `todo!("give error for {}", button)`
(lines 194, 217, 256), a Rust panic carrying the offending name — not a
recoverable Lua error value. -/
inductive LuaCallError where
  | todoPanic (button : String)
deriving DecidableEq

/-- One arm of the `match button.to_uppercase().as_str()` in `toggle`
(lines 171-195), applied to the already-uppercased name.  Bit constants:
`1 << 0 = 1`, `1 << 1 = 2`, `1 << 4 = 16`, `1 << 5 = 32`, `1 << 6 = 64`,
`1 << 7 = 128`; the u8 complements are `!(1<<4) = 239`, `!(1<<5) = 223`,
`!(1<<6) = 191`, `!(1<<7) = 127`. -/
def toggleU (input : Nat) (u : String) : Except LuaCallError Nat :=
  if u = "A" ∨ u = "JUMP" then .ok (input ^^^ 1)
  else if u = "B" ∨ u = "RUN" then .ok (input ^^^ 2)
  else if u = "U" ∨ u = "UP" then .ok ((input ^^^ 16) &&& 223)
  else if u = "D" ∨ u = "DOWN" then .ok ((input ^^^ 32) &&& 239)
  else if u = "L" ∨ u = "LEFT" then .ok ((input ^^^ 64) &&& 127)
  else if u = "R" ∨ u = "RIGHT" then .ok ((input ^^^ 128) &&& 191)
  else .error (.todoPanic u)

/-- One arm of the match in `release` (lines 210-218), uppercased name. -/
def releaseU (input : Nat) (u : String) : Except LuaCallError Nat :=
  if u = "A" ∨ u = "JUMP" then .ok (input &&& 254)
  else if u = "B" ∨ u = "RUN" then .ok (input &&& 253)
  else if u = "U" ∨ u = "UP" then .ok (input &&& 239)
  else if u = "D" ∨ u = "DOWN" then .ok (input &&& 223)
  else if u = "L" ∨ u = "LEFT" then .ok (input &&& 191)
  else if u = "R" ∨ u = "RIGHT" then .ok (input &&& 127)
  else .error (.todoPanic u)

/-- One arm of the match in `press` (lines 233-257), uppercased name. -/
def pressU (input : Nat) (u : String) : Except LuaCallError Nat :=
  if u = "A" ∨ u = "JUMP" then .ok (input ||| 1)
  else if u = "B" ∨ u = "RUN" then .ok (input ||| 2)
  else if u = "U" ∨ u = "UP" then .ok ((input ||| 16) &&& 223)
  else if u = "D" ∨ u = "DOWN" then .ok ((input ||| 32) &&& 239)
  else if u = "L" ∨ u = "LEFT" then .ok ((input ||| 64) &&& 127)
  else if u = "R" ∨ u = "RIGHT" then .ok ((input ||| 128) &&& 191)
  else .error (.todoPanic u)

/-- Effect of one toggle arm on the raw name (`button.to_uppercase()`). -/
def toggleButton (input : Nat) (b : String) : Except LuaCallError Nat :=
  toggleU input (toUpperStr b)

/-- Effect of one release arm on the raw name. -/
def releaseButton (input : Nat) (b : String) : Except LuaCallError Nat :=
  releaseU input (toUpperStr b)

/-- Effect of one press arm on the raw name. -/
def pressButton (input : Nat) (b : String) : Except LuaCallError Nat :=
  pressU input (toUpperStr b)

/-- The `for button in buttons` loop shared by toggle / release / press:
fold the per-button step over the local copy of the register, aborting at
the first panic. -/
def buttonsFold (step : Nat → String → Except LuaCallError Nat)
    (input : Nat) : List String → Except LuaCallError Nat
  | [] => .ok input
  | b :: bs =>
    match step input b with
    | .ok v => buttonsFold step v bs
    | .error e => .error e

/-- A whole callback body at the register level: load the shared register,
fold the buttons, and store the result only when the loop finished (on a
panic the `status.store` at the end never runs, so the shared register is
left at its previous value; the second component reports the panic). -/
def regOp (step : Nat → String → Except LuaCallError Nat)
    (input : Nat) (buttons : List String) : Nat × Option LuaCallError :=
  match buttonsFold step input buttons with
  | .ok v => (v, none)
  | .error e => (input, some e)

/-- The `toggle` callback (lines 164-201) at the register level. -/
def toggleOp (input : Nat) (buttons : List String) : Nat × Option LuaCallError :=
  regOp toggleButton input buttons

/-- The `release` callback (lines 203-224) at the register level. -/
def releaseOp (input : Nat) (buttons : List String) : Nat × Option LuaCallError :=
  regOp releaseButton input buttons

/-- The `press` callback (lines 226-263) at the register level. -/
def pressOp (input : Nat) (buttons : List String) : Nat × Option LuaCallError :=
  regOp pressButton input buttons

/-- A register-mutating script operation (the three primitives that touch
only the input register). -/
inductive RegOp where
  | toggle (bs : List String)
  | press (bs : List String)
  | release (bs : List String)
deriving DecidableEq

/-- Apply one register operation. -/
def applyRegOp (r : Nat) : RegOp → Nat × Option LuaCallError
  | .toggle bs => toggleOp r bs
  | .press bs => pressOp r bs
  | .release bs => releaseOp r bs

/-- Run a sequence of register operations; a todo-panic kills the script
thread, so the register freezes at its current value. -/
def runRegOps : List RegOp → Nat → Nat
  | [], r => r
  | op :: rest, r =>
    match applyRegOp r op with
    | (r2, none) => runRegOps rest r2
    | (r2, some _) => r2

/-- Directional mutual exclusion of the register: Up (bit 4) and Down
(bit 5) never both pressed, Left (bit 6) and Right (bit 7) never both
pressed. -/
def excl (r : Nat) : Prop :=
  (r.testBit 4 && r.testBit 5) = false ∧ (r.testBit 6 && r.testBit 7) = false

instance (r : Nat) : Decidable (excl r) :=
  inferInstanceAs (Decidable (((r.testBit 4 && r.testBit 5) = false) ∧
    ((r.testBit 6 && r.testBit 7) = false)))

/-- The register bit a button name drives: the exponents of the `1 << k`
constants in the source match arms, resolved through `to_uppercase`. -/
def buttonBit (s : String) : Option Nat :=
  if toUpperStr s = "A" ∨ toUpperStr s = "JUMP" then some 0
  else if toUpperStr s = "B" ∨ toUpperStr s = "RUN" then some 1
  else if toUpperStr s = "U" ∨ toUpperStr s = "UP" then some 4
  else if toUpperStr s = "D" ∨ toUpperStr s = "DOWN" then some 5
  else if toUpperStr s = "L" ∨ toUpperStr s = "LEFT" then some 6
  else if toUpperStr s = "R" ∨ toUpperStr s = "RIGHT" then some 7
  else none

/-- The observable state of the script thread: the shared input register
(`status: AtomicU8`), the number of `emulator.next_frame()` calls made so
far, the number of `frame.update(..)` calls (publish attempts), and the
register value the emulator sampled at each frame, in order. -/
structure ScriptState where
  input : Nat
  ticks : Nat
  attempts : Nat
  trace : List Nat
deriving DecidableEq

/-- One `emulator.next_frame()` call: the emulator advances one tick,
sampling the current register. -/
def nextFrame (st : ScriptState) : ScriptState :=
  { st with ticks := st.ticks + 1, trace := st.trace ++ [st.input] }

/-- One `frame.update(&mut emulator)` call: one publish attempt into the
frame channel. -/
def updateAttempt (st : ScriptState) : ScriptState :=
  { st with attempts := st.attempts + 1 }

/-- One paced loop iteration — `loop_start()`, `next_frame()`,
`frame.update(..)`, `loop_sleep()` — the body shared by the `wait`
callback (lines 154-159) and the free-run loop (lines 291-296). -/
def tickPaced (st : ScriptState) : ScriptState :=
  updateAttempt (nextFrame st)

/-- The `wait` callback (lines 151-162): `for _ in 0..time` around one
paced iteration. -/
def wait : Nat → ScriptState → ScriptState
  | 0, st => st
  | n + 1, st => wait n (tickPaced st)

/-- A script primitive invocation, already parsed the way the callbacks
parse their `MultiValue` arguments (for `hold`, the last argument popped
off as the tick count). -/
inductive Op where
  | wait (n : Nat)
  | toggle (bs : List String)
  | press (bs : List String)
  | release (bs : List String)
  | hold (bs : List String) (n : Nat)
deriving DecidableEq

/-- Run one primitive on the script-thread state.  A todo-panic unwinds
before the `status.store`, so the state is not changed by a failing call.
`hold` (lines 265-282) is `toggle`, then `wait(n)`, then `toggle`. -/
def runOp (st : ScriptState) : Op → Except LuaCallError ScriptState
  | .wait n => .ok (wait n st)
  | .toggle bs =>
    match buttonsFold toggleButton st.input bs with
    | .ok v => .ok { st with input := v }
    | .error e => .error e
  | .press bs =>
    match buttonsFold pressButton st.input bs with
    | .ok v => .ok { st with input := v }
    | .error e => .error e
  | .release bs =>
    match buttonsFold releaseButton st.input bs with
    | .ok v => .ok { st with input := v }
    | .error e => .error e
  | .hold bs n =>
    match buttonsFold toggleButton st.input bs with
    | .error e => .error e
    | .ok v1 =>
      let st1 := wait n { st with input := v1 }
      match buttonsFold toggleButton st1.input bs with
      | .error e => .error e
      | .ok v2 => .ok { st1 with input := v2 }

/-- Run a user script (a list of primitive calls); the first failing call
aborts the whole script with its error. -/
def runScript : List Op → ScriptState → Except LuaCallError ScriptState
  | [], st => .ok st
  | op :: rest, st =>
    match runOp st op with
    | .ok st2 => runScript rest st2
    | .error e => .error e

/-- The fixed bootstrap input vector (lines 135-142): 171 per-frame
register values, all zero except value `0b00001000` (Start) at index 32. -/
def bootstrapInputs : List Nat :=
  List.replicate 32 0 ++ [8] ++ List.replicate 138 0

/-- One bootstrap iteration (lines 143-144): `status.store(input)`, then
`emulator.next_frame()`. -/
def bootstrapStep (s : ScriptState) (v : Nat) : ScriptState :=
  nextFrame { s with input := v }

/-- The bootstrap replay (lines 135-146): run the fixed input vector,
then one `frame.update` to publish the reached frame. -/
def bootstrap (st : ScriptState) : ScriptState :=
  updateAttempt (bootstrapInputs.foldl bootstrapStep st)

/-- Script-thread state at spawn: `AtomicU8::new(0)` register, nothing
run yet. -/
def initState : ScriptState := ⟨0, 0, 0, []⟩

/-- How the script thread ends up after the user script: parked in the
free-run loop, or dead (an error propagates through the `?` at line 288
and the `unwrap` at line 340 panics the thread). -/
inductive ThreadFate where
  | freeRunning (st : ScriptState)
  | died (e : LuaCallError)
deriving DecidableEq

/-- `run_lua` (lines 122-297): bootstrap, then the user script; on
success fall through to the free-run loop, on error the thread dies. -/
def runLuaModel (script : List Op) : ThreadFate :=
  match runScript script (bootstrap initState) with
  | .ok st => .freeRunning st
  | .error e => .died e

/-- State of the free-run loop (lines 291-296) after n iterations: the
loop body is the same paced iteration as `wait`. -/
def freeRun (st : ScriptState) (n : Nat) : ScriptState := wait n st

theorem updateList_of_not_ready {F : Type} (fs : List F) (ch : Frame F)
    (h : ch.ready = false) : Frame.updateList ch fs = ch := by
  induction fs generalizing ch with
  | nil => rfl
  | cons f fs ih =>
    have hupd : Frame.update ch f = ch := by
      simp [Frame.update, h]
    simp [Frame.updateList, hupd, ih ch h]

theorem runEvents_taken_pred {F : Type} (evs : List (Ev F)) (P : F → Prop)
    (hpub : ∀ f, Ev.publish f ∈ evs → P f) :
    ∀ ch : Frame F, P ch.frame → ∀ v ∈ (runEvents ch evs).2, P v := by
  induction evs with
  | nil =>
    intro ch _ v hv
    simp [runEvents] at hv
  | cons e evs ih =>
    intro ch hch v hv
    cases e with
    | publish f =>
      have hpub2 : ∀ g, Ev.publish g ∈ evs → P g := by
        intro g hg
        exact hpub g (List.mem_cons_of_mem _ hg)
      have hf : P f := hpub f (List.mem_cons_self _ _)
      have hch2 : P (Frame.update ch f).frame := by
        unfold Frame.update
        by_cases hr : ch.ready = true
        · simp [hr]
          exact hf
        · simp [hr]
          exact hch
      exact ih hpub2 (Frame.update ch f) hch2 v hv
    | take =>
      have hpub2 : ∀ g, Ev.publish g ∈ evs → P g := by
        intro g hg
        exact hpub g (List.mem_cons_of_mem _ hg)
      simp only [runEvents] at hv
      rcases List.mem_cons.mp hv with hv | hv
      · subst hv
        exact hch
      · exact ih hpub2 (Frame.takeFrame ch).2 hch v hv

theorem mem_publishedOf {F : Type} (evs : List (Ev F)) (f : F) :
    Ev.publish f ∈ evs → f ∈ publishedOf evs := by
  induction evs with
  | nil => intro h; simp at h
  | cons e evs ih =>
    intro h
    cases e with
    | publish g =>
      rcases List.mem_cons.mp h with h | h
      · rw [Ev.publish.injEq] at h
        simp [publishedOf, h]
      · exact List.mem_cons_of_mem _ (ih h)
    | take =>
      rcases List.mem_cons.mp h with h | h
      · exact absurd h (by simp)
      · simpa [publishedOf] using ih h

/-- C1: drop-when-behind.  Starting from a consumed-or-empty slot, a
successful `publish(A)` followed by any number of further publishes with
no intervening take leaves the channel exactly as after `publish(A)`
(the later frames are discarded); the next take returns `A`, and a
further take with no intervening publish returns `A` again. -/
theorem frameChannel_drop_when_behind {F : Type} (ch : Frame F) (A : F)
    (rest : List F) (h : ch.ready = true) :
    Frame.updateList (Frame.update ch A) rest = Frame.update ch A ∧
    (Frame.takeFrame (Frame.updateList (Frame.update ch A) rest)).1 = A ∧
    (Frame.takeFrame
      ((Frame.takeFrame (Frame.updateList (Frame.update ch A) rest)).2)).1 = A := by
  have hA : Frame.update ch A = { frame := A, ready := false } := by
    simp [Frame.update, h]
  have hlist : Frame.updateList (Frame.update ch A) rest = Frame.update ch A := by
    apply updateList_of_not_ready
    rw [hA]
  refine ⟨hlist, ?_, ?_⟩
  · rw [hlist, hA]
    rfl
  · rw [hlist, hA]
    rfl

theorem frameChannel_drop_when_behind_witness :
    (Frame.mk 0 true : Frame Nat).ready = true ∧
    (Frame.takeFrame (Frame.updateList (Frame.update (Frame.mk 0 true) 1) [2, 3])).1 = 1 :=
  ⟨rfl, (frameChannel_drop_when_behind (Frame.mk 0 true) 1 [2, 3] rfl).2.1⟩

/-- C2 as stated is false: in the history consisting of a single take and
no publish, the take returns the initial all-zeros frame, which was never
passed to publish. -/
theorem no_tearing_as_stated_false :
    ¬ (∀ evs : List (Ev NesFrame),
        ∀ v ∈ (runEvents initChannel evs).2, v ∈ publishedOf evs) := by
  intro h
  have hmem : initFrame ∈ (runEvents initChannel [Ev.take]).2 := by
    simp [runEvents, Frame.takeFrame, initChannel]
  have habs := h [Ev.take] initFrame hmem
  simp [publishedOf] at habs

/-- C2 amended: for every history of publish and take operations on the
channel constructed in `main`, every value returned by take equals some
value previously passed whole to publish, or the initial all-zeros frame;
never a mixture of two frames. -/
theorem no_tearing_amended (evs : List (Ev NesFrame)) :
    ∀ v ∈ (runEvents initChannel evs).2,
      v ∈ publishedOf evs ∨ v = initFrame := by
  have h := runEvents_taken_pred evs
    (fun v => v ∈ publishedOf evs ∨ v = initFrame)
    (fun f hf => Or.inl (mem_publishedOf evs f hf))
    initChannel (Or.inr rfl)
  exact h

theorem no_tearing_amended_witness :
    initFrame ∈ (runEvents initChannel [Ev.take]).2 ∧
    (initFrame ∈ publishedOf ([Ev.take] : List (Ev NesFrame)) ∨
      initFrame = initFrame) := by
  have hmem : initFrame ∈ (runEvents initChannel [Ev.take]).2 := by
    simp [runEvents, Frame.takeFrame, initChannel]
  exact ⟨hmem, no_tearing_amended [Ev.take] initFrame hmem⟩

/-- C10: a take before any publish returns the initial frame, whose
61440 pixels are all `r = g = b = a = 0`; the take marks the slot
consumed-or-empty, so the first subsequent publish succeeds and stores
its frame. -/
theorem initial_take (f : NesFrame) :
    (Frame.takeFrame initChannel).1 = initFrame ∧
    initFrame = List.replicate 61440 ⟨0, 0, 0, 0⟩ ∧
    (runEvents initChannel [Ev.take]).2 = [initFrame] ∧
    publishedOf ([Ev.take] : List (Ev NesFrame)) = [] ∧
    (Frame.takeFrame initChannel).2.ready = true ∧
    Frame.update (Frame.takeFrame initChannel).2 f = { frame := f, ready := false } := by
  refine ⟨rfl, rfl, rfl, rfl, rfl, ?_⟩
  simp [Frame.update, Frame.takeFrame]

theorem wait_eq (n : Nat) (st : ScriptState) :
    wait n st = ⟨st.input, st.ticks + n, st.attempts + n,
      st.trace ++ List.replicate n st.input⟩ := by
  induction n generalizing st with
  | zero => simp [wait]
  | succ n ih =>
    simp only [wait]
    rw [ih]
    simp [tickPaced, nextFrame, updateAttempt, List.replicate_succ]
    omega

set_option maxRecDepth 8192 in
theorem toggleU_arms : ∀ i : Fin 256,
    ((i.val ^^^ 1) < 256 ∧ (excl i.val → excl (i.val ^^^ 1))) ∧
    ((i.val ^^^ 2) < 256 ∧ (excl i.val → excl (i.val ^^^ 2))) ∧
    (((i.val ^^^ 16) &&& 223) < 256 ∧ (excl i.val → excl ((i.val ^^^ 16) &&& 223))) ∧
    (((i.val ^^^ 32) &&& 239) < 256 ∧ (excl i.val → excl ((i.val ^^^ 32) &&& 239))) ∧
    (((i.val ^^^ 64) &&& 127) < 256 ∧ (excl i.val → excl ((i.val ^^^ 64) &&& 127))) ∧
    (((i.val ^^^ 128) &&& 191) < 256 ∧ (excl i.val → excl ((i.val ^^^ 128) &&& 191))) := by
  decide

set_option maxRecDepth 8192 in
theorem pressU_arms : ∀ i : Fin 256,
    ((i.val ||| 1) < 256 ∧ (excl i.val → excl (i.val ||| 1))) ∧
    ((i.val ||| 2) < 256 ∧ (excl i.val → excl (i.val ||| 2))) ∧
    (((i.val ||| 16) &&& 223) < 256 ∧ (excl i.val → excl ((i.val ||| 16) &&& 223))) ∧
    (((i.val ||| 32) &&& 239) < 256 ∧ (excl i.val → excl ((i.val ||| 32) &&& 239))) ∧
    (((i.val ||| 64) &&& 127) < 256 ∧ (excl i.val → excl ((i.val ||| 64) &&& 127))) ∧
    (((i.val ||| 128) &&& 191) < 256 ∧ (excl i.val → excl ((i.val ||| 128) &&& 191))) := by
  decide

set_option maxRecDepth 8192 in
theorem releaseU_arms : ∀ i : Fin 256,
    ((i.val &&& 254) < 256 ∧ (excl i.val → excl (i.val &&& 254))) ∧
    ((i.val &&& 253) < 256 ∧ (excl i.val → excl (i.val &&& 253))) ∧
    ((i.val &&& 239) < 256 ∧ (excl i.val → excl (i.val &&& 239))) ∧
    ((i.val &&& 223) < 256 ∧ (excl i.val → excl (i.val &&& 223))) ∧
    ((i.val &&& 191) < 256 ∧ (excl i.val → excl (i.val &&& 191))) ∧
    ((i.val &&& 127) < 256 ∧ (excl i.val → excl (i.val &&& 127))) := by
  decide

set_option maxRecDepth 8192 in
theorem hold_arms : ∀ i : Fin 256,
    (i.val.testBit 0 = false →
      (i.val ^^^ 1).testBit 0 = true ∧ ((i.val ^^^ 1) ^^^ 1).testBit 0 = false) ∧
    (i.val.testBit 1 = false →
      (i.val ^^^ 2).testBit 1 = true ∧ ((i.val ^^^ 2) ^^^ 2).testBit 1 = false) ∧
    (i.val.testBit 4 = false →
      ((i.val ^^^ 16) &&& 223).testBit 4 = true ∧
      ((((i.val ^^^ 16) &&& 223) ^^^ 16) &&& 223).testBit 4 = false) ∧
    (i.val.testBit 5 = false →
      ((i.val ^^^ 32) &&& 239).testBit 5 = true ∧
      ((((i.val ^^^ 32) &&& 239) ^^^ 32) &&& 239).testBit 5 = false) ∧
    (i.val.testBit 6 = false →
      ((i.val ^^^ 64) &&& 127).testBit 6 = true ∧
      ((((i.val ^^^ 64) &&& 127) ^^^ 64) &&& 127).testBit 6 = false) ∧
    (i.val.testBit 7 = false →
      ((i.val ^^^ 128) &&& 191).testBit 7 = true ∧
      ((((i.val ^^^ 128) &&& 191) ^^^ 128) &&& 191).testBit 7 = false) := by
  decide

theorem toggleButton_inv : ∀ (i : Nat) (b : String) (v : Nat), i < 256 →
    excl i → toggleButton i b = .ok v → v < 256 ∧ excl v := by
  intro i b v h1 h2 h
  have ha := toggleU_arms ⟨i, h1⟩
  unfold toggleButton toggleU at h
  split_ifs at h
  · rw [Except.ok.injEq] at h; subst h; exact ⟨ha.1.1, ha.1.2 h2⟩
  · rw [Except.ok.injEq] at h; subst h; exact ⟨ha.2.1.1, ha.2.1.2 h2⟩
  · rw [Except.ok.injEq] at h; subst h; exact ⟨ha.2.2.1.1, ha.2.2.1.2 h2⟩
  · rw [Except.ok.injEq] at h; subst h; exact ⟨ha.2.2.2.1.1, ha.2.2.2.1.2 h2⟩
  · rw [Except.ok.injEq] at h; subst h; exact ⟨ha.2.2.2.2.1.1, ha.2.2.2.2.1.2 h2⟩
  · rw [Except.ok.injEq] at h; subst h; exact ⟨ha.2.2.2.2.2.1, ha.2.2.2.2.2.2 h2⟩

theorem pressButton_inv : ∀ (i : Nat) (b : String) (v : Nat), i < 256 →
    excl i → pressButton i b = .ok v → v < 256 ∧ excl v := by
  intro i b v h1 h2 h
  have ha := pressU_arms ⟨i, h1⟩
  unfold pressButton pressU at h
  split_ifs at h
  · rw [Except.ok.injEq] at h; subst h; exact ⟨ha.1.1, ha.1.2 h2⟩
  · rw [Except.ok.injEq] at h; subst h; exact ⟨ha.2.1.1, ha.2.1.2 h2⟩
  · rw [Except.ok.injEq] at h; subst h; exact ⟨ha.2.2.1.1, ha.2.2.1.2 h2⟩
  · rw [Except.ok.injEq] at h; subst h; exact ⟨ha.2.2.2.1.1, ha.2.2.2.1.2 h2⟩
  · rw [Except.ok.injEq] at h; subst h; exact ⟨ha.2.2.2.2.1.1, ha.2.2.2.2.1.2 h2⟩
  · rw [Except.ok.injEq] at h; subst h; exact ⟨ha.2.2.2.2.2.1, ha.2.2.2.2.2.2 h2⟩

theorem releaseButton_inv : ∀ (i : Nat) (b : String) (v : Nat), i < 256 →
    excl i → releaseButton i b = .ok v → v < 256 ∧ excl v := by
  intro i b v h1 h2 h
  have ha := releaseU_arms ⟨i, h1⟩
  unfold releaseButton releaseU at h
  split_ifs at h
  · rw [Except.ok.injEq] at h; subst h; exact ⟨ha.1.1, ha.1.2 h2⟩
  · rw [Except.ok.injEq] at h; subst h; exact ⟨ha.2.1.1, ha.2.1.2 h2⟩
  · rw [Except.ok.injEq] at h; subst h; exact ⟨ha.2.2.1.1, ha.2.2.1.2 h2⟩
  · rw [Except.ok.injEq] at h; subst h; exact ⟨ha.2.2.2.1.1, ha.2.2.2.1.2 h2⟩
  · rw [Except.ok.injEq] at h; subst h; exact ⟨ha.2.2.2.2.1.1, ha.2.2.2.2.1.2 h2⟩
  · rw [Except.ok.injEq] at h; subst h; exact ⟨ha.2.2.2.2.2.1, ha.2.2.2.2.2.2 h2⟩

theorem buttonsFold_inv (step : Nat → String → Except LuaCallError Nat)
    (hstep : ∀ (i : Nat) (b : String) (v : Nat), i < 256 → excl i →
      step i b = .ok v → v < 256 ∧ excl v) :
    ∀ (bs : List String) (i v : Nat), i < 256 → excl i →
      buttonsFold step i bs = .ok v → v < 256 ∧ excl v := by
  intro bs
  induction bs with
  | nil =>
    intro i v h1 h2 h
    rw [buttonsFold, Except.ok.injEq] at h
    subst h
    exact ⟨h1, h2⟩
  | cons b bs ih =>
    intro i v h1 h2 h
    cases hs : step i b with
    | ok w =>
      simp only [buttonsFold, hs] at h
      have hw := hstep i b w h1 h2 hs
      exact ih w v hw.1 hw.2 h
    | error e =>
      simp only [buttonsFold, hs] at h
      exact Except.noConfusion h

theorem regOp_inv (step : Nat → String → Except LuaCallError Nat)
    (hstep : ∀ (i : Nat) (b : String) (v : Nat), i < 256 → excl i →
      step i b = .ok v → v < 256 ∧ excl v)
    (i : Nat) (bs : List String) (h1 : i < 256) (h2 : excl i) :
    (regOp step i bs).1 < 256 ∧ excl (regOp step i bs).1 := by
  unfold regOp
  cases hf : buttonsFold step i bs with
  | ok v =>
    simp only [hf]
    exact buttonsFold_inv step hstep bs i v h1 h2 hf
  | error e =>
    simp only [hf]
    exact ⟨h1, h2⟩

theorem applyRegOp_inv (op : RegOp) (r : Nat) (h1 : r < 256) (h2 : excl r) :
    (applyRegOp r op).1 < 256 ∧ excl (applyRegOp r op).1 := by
  cases op with
  | toggle bs =>
    simp only [applyRegOp, toggleOp]
    exact regOp_inv toggleButton toggleButton_inv r bs h1 h2
  | press bs =>
    simp only [applyRegOp, pressOp]
    exact regOp_inv pressButton pressButton_inv r bs h1 h2
  | release bs =>
    simp only [applyRegOp, releaseOp]
    exact regOp_inv releaseButton releaseButton_inv r bs h1 h2

theorem runRegOps_inv : ∀ (ops : List RegOp) (r : Nat), r < 256 → excl r →
    runRegOps ops r < 256 ∧ excl (runRegOps ops r) := by
  intro ops
  induction ops with
  | nil =>
    intro r h1 h2
    exact ⟨h1, h2⟩
  | cons op rest ih =>
    intro r h1 h2
    have hop := applyRegOp_inv op r h1 h2
    rcases hres : applyRegOp r op with ⟨r2, opt⟩
    rw [hres] at hop
    cases opt with
    | none =>
      simp only [runRegOps, hres]
      exact ih r2 hop.1 hop.2
    | some e =>
      simp only [runRegOps, hres]
      exact hop

theorem runOp_hold_one (st : ScriptState) (n : Nat) (name : String) (v1 v2 : Nat)
    (h1 : toggleButton st.input name = .ok v1)
    (h2 : toggleButton v1 name = .ok v2) :
    runOp st (Op.hold [name] n) =
      .ok ⟨v2, st.ticks + n, st.attempts + n, st.trace ++ List.replicate n v1⟩ := by
  simp only [runOp, buttonsFold, h1]
  rw [wait_eq]
  simp only [buttonsFold, h2]

theorem buttonsFold_single_congr (step : Nat → String → Except LuaCallError Nat)
    (i : Nat) (s t : String) (h : step i s = step i t) :
    regOp step i [s] = regOp step i [t] := by
  unfold regOp
  simp only [buttonsFold, h]

/-- C3: an unknown button name given to press (or toggle, or release) does
not reach the `status.store`, so the input register is unchanged; but the
outcome is the `todo!("give error for {}")` panic, which kills the script
thread instead of signalling a recoverable `InvalidButtonName` condition.
This theorem records what the code does at the failing input. -/
theorem unknown_button_todo_panics (input : Nat) :
    pressOp input ["Z"] = (input, some (LuaCallError.todoPanic "Z")) ∧
    toggleOp input ["Z"] = (input, some (LuaCallError.todoPanic "Z")) ∧
    releaseOp input ["Z"] = (input, some (LuaCallError.todoPanic "Z")) :=
  ⟨rfl, rfl, rfl⟩

/-- C5: after any sequence of toggle / press / release calls starting from
the all-released register, Up (bit 4) and Down (bit 5) are never both
pressed and Left (bit 6) and Right (bit 7) are never both pressed; in
particular toggle(Down) then toggle(Up) leaves Up pressed and Down
released, and press(Left) then press(Right) leaves Right pressed and Left
released. -/
theorem directional_exclusion :
    (∀ ops : List RegOp, excl (runRegOps ops 0)) ∧
    (runRegOps [RegOp.toggle ["Down"], RegOp.toggle ["Up"]] 0).testBit 4 = true ∧
    (runRegOps [RegOp.toggle ["Down"], RegOp.toggle ["Up"]] 0).testBit 5 = false ∧
    (runRegOps [RegOp.press ["Left"], RegOp.press ["Right"]] 0).testBit 7 = true ∧
    (runRegOps [RegOp.press ["Left"], RegOp.press ["Right"]] 0).testBit 6 = false := by
  refine ⟨?_, by decide, by decide, by decide, by decide⟩
  intro ops
  exact (runRegOps_inv ops 0 (by decide) (by decide)).2

/-- C6: `wait n` advances exactly n ticks, makes one publish attempt per
tick, and leaves the input register unchanged; `wait 0` is a no-op. -/
theorem wait_spec (n : Nat) (st : ScriptState) :
    (wait n st).input = st.input ∧
    (wait n st).ticks = st.ticks + n ∧
    (wait n st).attempts = st.attempts + n ∧
    wait 0 st = st := by
  simp [wait_eq]

/-- C4: `hold([button], n)` is toggle → wait n → toggle; when the listed
button starts released (its register bit clear), the call advances exactly
n ticks with one publish attempt each, the emulator samples a register
with the button pressed on every one of those ticks, and the button is
released again immediately after the call. -/
theorem hold_spec (name : String) (b : Nat) (st : ScriptState) (n : Nat)
    (hb : buttonBit name = some b) (hin : st.input < 256)
    (hrel : st.input.testBit b = false) :
    ∃ pressedReg finalReg,
      runOp st (Op.hold [name] n) =
        .ok ⟨finalReg, st.ticks + n, st.attempts + n,
          st.trace ++ List.replicate n pressedReg⟩ ∧
      pressedReg.testBit b = true ∧
      finalReg.testBit b = false := by
  have ha := hold_arms ⟨st.input, hin⟩
  unfold buttonBit at hb
  split_ifs at hb with hA hB hU hD hL hR
  · rw [Option.some.injEq] at hb; subst hb
    have e1 : toggleButton st.input name = .ok (st.input ^^^ 1) := by
      unfold toggleButton toggleU
      rw [if_pos hA]
    have e2 : toggleButton (st.input ^^^ 1) name = .ok ((st.input ^^^ 1) ^^^ 1) := by
      unfold toggleButton toggleU
      rw [if_pos hA]
    exact ⟨_, _, runOp_hold_one st n name _ _ e1 e2,
      (ha.1 hrel).1, (ha.1 hrel).2⟩
  · rw [Option.some.injEq] at hb; subst hb
    have e1 : toggleButton st.input name = .ok (st.input ^^^ 2) := by
      unfold toggleButton toggleU
      rw [if_neg hA, if_pos hB]
    have e2 : toggleButton (st.input ^^^ 2) name = .ok ((st.input ^^^ 2) ^^^ 2) := by
      unfold toggleButton toggleU
      rw [if_neg hA, if_pos hB]
    exact ⟨_, _, runOp_hold_one st n name _ _ e1 e2,
      (ha.2.1 hrel).1, (ha.2.1 hrel).2⟩
  · rw [Option.some.injEq] at hb; subst hb
    have e1 : toggleButton st.input name = .ok ((st.input ^^^ 16) &&& 223) := by
      unfold toggleButton toggleU
      rw [if_neg hA, if_neg hB, if_pos hU]
    have e2 : toggleButton ((st.input ^^^ 16) &&& 223) name =
        .ok ((((st.input ^^^ 16) &&& 223) ^^^ 16) &&& 223) := by
      unfold toggleButton toggleU
      rw [if_neg hA, if_neg hB, if_pos hU]
    exact ⟨_, _, runOp_hold_one st n name _ _ e1 e2,
      (ha.2.2.1 hrel).1, (ha.2.2.1 hrel).2⟩
  · rw [Option.some.injEq] at hb; subst hb
    have e1 : toggleButton st.input name = .ok ((st.input ^^^ 32) &&& 239) := by
      unfold toggleButton toggleU
      rw [if_neg hA, if_neg hB, if_neg hU, if_pos hD]
    have e2 : toggleButton ((st.input ^^^ 32) &&& 239) name =
        .ok ((((st.input ^^^ 32) &&& 239) ^^^ 32) &&& 239) := by
      unfold toggleButton toggleU
      rw [if_neg hA, if_neg hB, if_neg hU, if_pos hD]
    exact ⟨_, _, runOp_hold_one st n name _ _ e1 e2,
      (ha.2.2.2.1 hrel).1, (ha.2.2.2.1 hrel).2⟩
  · rw [Option.some.injEq] at hb; subst hb
    have e1 : toggleButton st.input name = .ok ((st.input ^^^ 64) &&& 127) := by
      unfold toggleButton toggleU
      rw [if_neg hA, if_neg hB, if_neg hU, if_neg hD, if_pos hL]
    have e2 : toggleButton ((st.input ^^^ 64) &&& 127) name =
        .ok ((((st.input ^^^ 64) &&& 127) ^^^ 64) &&& 127) := by
      unfold toggleButton toggleU
      rw [if_neg hA, if_neg hB, if_neg hU, if_neg hD, if_pos hL]
    exact ⟨_, _, runOp_hold_one st n name _ _ e1 e2,
      (ha.2.2.2.2.1 hrel).1, (ha.2.2.2.2.1 hrel).2⟩
  · rw [Option.some.injEq] at hb; subst hb
    have e1 : toggleButton st.input name = .ok ((st.input ^^^ 128) &&& 191) := by
      unfold toggleButton toggleU
      rw [if_neg hA, if_neg hB, if_neg hU, if_neg hD, if_neg hL, if_pos hR]
    have e2 : toggleButton ((st.input ^^^ 128) &&& 191) name =
        .ok ((((st.input ^^^ 128) &&& 191) ^^^ 128) &&& 191) := by
      unfold toggleButton toggleU
      rw [if_neg hA, if_neg hB, if_neg hU, if_neg hD, if_neg hL, if_pos hR]
    exact ⟨_, _, runOp_hold_one st n name _ _ e1 e2,
      (ha.2.2.2.2.2 hrel).1, (ha.2.2.2.2.2 hrel).2⟩

theorem hold_spec_witness :
    buttonBit "A" = some 0 ∧ (0 : Nat) < 256 ∧ Nat.testBit 0 0 = false ∧
    ∃ pressedReg finalReg,
      runOp ⟨0, 0, 0, []⟩ (Op.hold ["A"] 5) =
        .ok ⟨finalReg, 0 + 5, 0 + 5, [] ++ List.replicate 5 pressedReg⟩ ∧
      pressedReg.testBit 0 = true ∧
      finalReg.testBit 0 = false :=
  ⟨by decide, by decide, by decide,
   hold_spec "A" 0 ⟨0, 0, 0, []⟩ 5 (by decide) (by decide) (by decide)⟩

/-- C7 as stated is false: a script whose first call hits the todo-panic
(a fatal script error) does not fall through to the free-run loop — the
error propagates out of `run_lua` and the thread dies. -/
theorem script_error_skips_freerun :
    runLuaModel [Op.press ["Z"]] = ThreadFate.died (LuaCallError.todoPanic "Z") := rfl

/-- C7 amended: after the bootstrap sequence the user script runs to
completion or to a fatal script error.  On completion the thread falls
through to the free-run loop, which each iteration advances the
simulation one tick and makes one publish attempt, never changes the
input register, and never returns to an earlier state (ticks strictly
increase); on a fatal script error the thread dies without entering the
free-run loop. -/
theorem script_lifecycle (script : List Op) :
    (∀ st, runLuaModel script = ThreadFate.freeRunning st →
      ∀ n, (freeRun st n).input = st.input ∧
        (freeRun st n).ticks = st.ticks + n ∧
        (freeRun st n).attempts = st.attempts + n ∧
        ∀ m, m < n → (freeRun st m).ticks < (freeRun st n).ticks) ∧
    (∀ e, runLuaModel script = ThreadFate.died e →
      ∀ st, runLuaModel script ≠ ThreadFate.freeRunning st) := by
  constructor
  · intro st _ n
    refine ⟨?_, ?_, ?_, ?_⟩
    · simp [freeRun, wait_eq]
    · simp [freeRun, wait_eq]
    · simp [freeRun, wait_eq]
    · intro m hm
      simp only [freeRun, wait_eq]
      omega
  · intro e he st hst
    rw [he] at hst
    exact ThreadFate.noConfusion hst

theorem script_lifecycle_witness :
    runLuaModel [] = ThreadFate.freeRunning (bootstrap initState) ∧
    (freeRun (bootstrap initState) 2).ticks = (bootstrap initState).ticks + 2 ∧
    (freeRun (bootstrap initState) 1).ticks < (freeRun (bootstrap initState) 2).ticks := by
  refine ⟨rfl, ?_, ?_⟩
  · exact ((script_lifecycle []).1 (bootstrap initState) rfl 2).2.1
  · exact ((script_lifecycle []).1 (bootstrap initState) rfl 2).2.2.2 1 (by decide)

/-- C8: button-name resolution is case-insensitive (two names with the
same uppercasing behave identically under press, toggle and release), and
each alias pair — A/Jump, B/Run, Up/U, Down/D, Left/L, Right/R — produces
identical register outcomes under all three primitives. -/
theorem alias_case_equivalence :
    (∀ s t : String, toUpperStr s = toUpperStr t → ∀ input : Nat,
      pressOp input [s] = pressOp input [t] ∧
      toggleOp input [s] = toggleOp input [t] ∧
      releaseOp input [s] = releaseOp input [t]) ∧
    (∀ input : Nat,
      (pressOp input ["A"] = pressOp input ["Jump"] ∧
        toggleOp input ["A"] = toggleOp input ["Jump"] ∧
        releaseOp input ["A"] = releaseOp input ["Jump"]) ∧
      (pressOp input ["B"] = pressOp input ["Run"] ∧
        toggleOp input ["B"] = toggleOp input ["Run"] ∧
        releaseOp input ["B"] = releaseOp input ["Run"]) ∧
      (pressOp input ["Up"] = pressOp input ["U"] ∧
        toggleOp input ["Up"] = toggleOp input ["U"] ∧
        releaseOp input ["Up"] = releaseOp input ["U"]) ∧
      (pressOp input ["Down"] = pressOp input ["D"] ∧
        toggleOp input ["Down"] = toggleOp input ["D"] ∧
        releaseOp input ["Down"] = releaseOp input ["D"]) ∧
      (pressOp input ["Left"] = pressOp input ["L"] ∧
        toggleOp input ["Left"] = toggleOp input ["L"] ∧
        releaseOp input ["Left"] = releaseOp input ["L"]) ∧
      (pressOp input ["Right"] = pressOp input ["R"] ∧
        toggleOp input ["Right"] = toggleOp input ["R"] ∧
        releaseOp input ["Right"] = releaseOp input ["R"])) := by
  constructor
  · intro s t h input
    refine ⟨?_, ?_, ?_⟩
    · exact buttonsFold_single_congr pressButton input s t
        (by unfold pressButton; rw [h])
    · exact buttonsFold_single_congr toggleButton input s t
        (by unfold toggleButton; rw [h])
    · exact buttonsFold_single_congr releaseButton input s t
        (by unfold releaseButton; rw [h])
  · intro input
    exact ⟨⟨rfl, rfl, rfl⟩, ⟨rfl, rfl, rfl⟩, ⟨rfl, rfl, rfl⟩,
      ⟨rfl, rfl, rfl⟩, ⟨rfl, rfl, rfl⟩, ⟨rfl, rfl, rfl⟩⟩

theorem alias_case_equivalence_witness :
    toUpperStr "a" = toUpperStr "A" ∧ pressOp 3 ["a"] = pressOp 3 ["A"] :=
  ⟨rfl, (alias_case_equivalence.1 "a" "A" rfl 3).1⟩

end Marlua
